import Mathlib

/-!
Verification of the chain-state tracker in `protocol/protocol.go` of the
bytom repository (package `protocol`).

The Go code keeps a condition-variable-guarded register
`c.state = { height uint64, block *legacy.Block, snapshot *state.Snapshot }`
inside the `Chain` struct, mutated by `setState`, read by `Height`,
`TimestampMS` and `State`, seeded by `NewChain` from a `Store`, and observed
by the wait primitives `BlockWaiter` / `BlockSoonWaiter`.  A background
goroutine drains `pendingSnapshots` and calls `store.SaveSnapshot`.

Shallow embedding conventions:
* Go pointers that may be `nil` become `Option`.
* `uint64` values become `Nat`; the only arithmetic the claims touch is the
  `c.Height()+slop` addition in `BlockSoonWaiter`, which is embedded with an
  explicit `% 2 ^ 64` to reflect uint64 wraparound.
* Every public operation of `Chain` runs under the single mutex
  `c.state.cond.L`, so each call is one atomic step; sequences of calls are
  modelled as folds over the state, and the goroutine bodies of
  `BlockWaiter` and the snapshot worker as recursions over the sequence of
  states / requests they observe.
-/

namespace Protocol

/-- The uint64 modulus: Go unsigned 64-bit arithmetic wraps at this value. -/
def UINT64MOD : Nat := 2 ^ 64

/-- The fields of `legacy.Block` that `protocol.go` reads: the promoted
header fields `b.Height` and `b.TimestampMS` (both `uint64`). -/
structure Block where
  Height : Nat
  TimestampMS : Nat
deriving DecidableEq, Repr

/-- A `state.Snapshot` is opaque to `protocol.go`: it is only stored,
handed back out, and passed to `SaveSnapshot`.  We model it as a tagged
value so distinct snapshots are distinguishable. -/
structure Snapshot where
  id : Nat
deriving DecidableEq, Repr

/-- `state.Empty()`: the distinguished empty snapshot used to seed an
uninitialized chain in `NewChain`. -/
def stateEmpty : Snapshot := ⟨0⟩

/-- Errors returned by the `Store` interface; `protocol.go` only ever
branches on nil / non-nil, but the spec distinguishes NotFound. -/
inductive StoreErr where
  | notFound
  | saveFailed
deriving DecidableEq, Repr

/-- The error value `ErrTheDistantFuture` and the context-cancellation
error that `BlockSoonWaiter` can deliver. -/
inductive ProtoErr where
  | theDistantFuture
  | ctxCancelled
deriving DecidableEq, Repr

/-- The guarded register `c.state` of the Go `Chain` struct:
`height uint64`, `block *legacy.Block`, `snapshot *state.Snapshot`
(pointers become `Option`). -/
structure ChainState where
  height : Nat
  block : Option Block
  snapshot : Option Snapshot
deriving DecidableEq, Repr

/-- `(c *Chain) setState(b, s)` (protocol.go:151-160): under the lock it
unconditionally assigns `c.state.block = b` and `c.state.snapshot = s`;
then, only `if b != nil && b.Height > c.state.height`, it assigns
`c.state.height = b.Height` and calls `c.state.cond.Broadcast()`.
The returned `Bool` records whether `Broadcast` was called. -/
def setState (b : Option Block) (s : Option Snapshot) (st : ChainState) :
    ChainState × Bool :=
  let st1 : ChainState := { st with block := b, snapshot := s }
  match b with
  | some blk =>
      if blk.Height > st.height then
        ({ st1 with height := blk.Height }, true)
      else
        (st1, false)
  | none => (st1, false)

/-- `(c *Chain) Height()` (protocol.go:126-130): reads `c.state.height`
under the lock. -/
def Height (st : ChainState) : Nat := st.height

/-- `(c *Chain) TimestampMS()` (protocol.go:133-140): under the lock,
returns `0` if `c.state.block == nil`, else `c.state.block.TimestampMS`.
The second component is the state after the call: the body only reads. -/
def TimestampMS (st : ChainState) : Nat × ChainState :=
  (match st.block with
   | none => 0
   | some b => b.TimestampMS, st)

/-- `(c *Chain) State()` (protocol.go:145-149): returns the pair
`(c.state.block, c.state.snapshot)` read together under the lock. -/
def State (st : ChainState) : Option Block × Option Snapshot :=
  (st.block, st.snapshot)

/-- One queued call to `setState`: the `(b, s)` arguments. -/
def applyUpdates (st : ChainState)
    (us : List (Option Block × Option Snapshot)) : ChainState :=
  us.foldl (fun acc u => (setState u.1 u.2 acc).1) st

/-- The `Store` interface as `NewChain` consumes it: `Height()`,
`GetBlock(height)` returning `(*legacy.Block, error)`, and
`LatestSnapshot(ctx)` returning `(*state.Snapshot, uint64, error)`.
Each method is modelled by the value it returns during initialization. -/
structure StoreModel where
  height : Nat
  getBlock : Nat → Option Block × Option StoreErr
  latestSnapshot : Option Snapshot × Nat × Option StoreErr

/-- `NewChain` (protocol.go:73-119), restricted to its effect on `c.state`
and its returned error.  The fresh `Chain` starts with zero-valued state
(`block = nil`, `snapshot = nil`); then `c.state.height = store.Height()`;
if `c.state.height < 1` it sets `c.state.snapshot = state.Empty()`,
otherwise `c.state.block, _ = store.GetBlock(c.state.height)` and
`c.state.snapshot, _, _ = store.LatestSnapshot(ctx)` — both errors are
discarded with `_`.  The function ends with `return c, nil`, so the error
component is always `none`. -/
def NewChain (store : StoreModel) : ChainState × Option StoreErr :=
  let h := store.height
  if h < 1 then
    ({ height := h, block := none, snapshot := some stateEmpty }, none)
  else
    ({ height := h, block := (store.getBlock h).1,
       snapshot := (store.latestSnapshot).1 }, none)

/-- `const slop = 3` in `BlockSoonWaiter` (protocol.go:171). -/
def slop : Nat := 3

/-- The immediate outcome of the goroutine in `BlockSoonWaiter`
(protocol.go:170-183): either it sends `ErrTheDistantFuture` and returns
before any wait is started, or it proceeds to the `select` that races
`c.BlockWaiter(height)` against `ctx.Done()`. -/
inductive SoonOutcome where
  | distantFuture
  | startedWait
deriving DecidableEq, Repr

/-- The fast-fail check of `BlockSoonWaiter` (protocol.go:172-175):
`if height > c.Height()+slop { ch <- ErrTheDistantFuture; return }`.
The addition `c.Height()+slop` is uint64 addition, hence the `% 2 ^ 64`. -/
def BlockSoonWaiter (st : ChainState) (target : Nat) : SoonOutcome :=
  if target > (Height st + slop) % UINT64MOD then
    SoonOutcome.distantFuture
  else
    SoonOutcome.startedWait

/-- The goroutine body of `BlockWaiter` (protocol.go:192-199):
`for c.state.height < height { c.state.cond.Wait() }` then
`ch <- struct{}{}`.  Its argument is the sequence of chain states the
goroutine observes, one per lock acquisition (the initial acquisition and
each return from `Wait`); the result is the list of messages it sends on
its channel before it either returns or blocks past the observed
sequence. -/
def BlockWaiterRun (target : Nat) : List ChainState → List Unit
  | [] => []
  | st :: rest =>
      if st.height < target then BlockWaiterRun target rest else [()]

/-- A `pendingSnapshot` work item (protocol.go:67-70):
`{ height uint64; snapshot *state.Snapshot }`. -/
structure PendingSnapshot where
  height : Nat
  snapshot : Option Snapshot
deriving DecidableEq, Repr

/-- The in-process state the snapshot worker can reach: the shared chain
register and the error log appended to by `log.Error`.  Durable storage
itself is behind the external `Store` interface. -/
structure SysState where
  chain : ChainState
  logged : List String
deriving DecidableEq, Repr

/-- One iteration of the snapshot-persistence goroutine
(protocol.go:109-113): receive `ps`, call
`store.SaveSnapshot(ctx, ps.height, ps.snapshot)`, and
`if err != nil { log.Error(ctx, err, "at", "saving snapshot") }`.
`saveErr` is the error the external store returned from that call; the
body touches nothing else in the process. -/
def workerStep (sys : SysState) (ps : PendingSnapshot)
    (saveErr : Option StoreErr) : SysState :=
  match ps, saveErr with
  | _, none => sys
  | _, some _ => { sys with logged := sys.logged ++ ["saving snapshot"] }

/-- The worker loop (protocol.go:104-116): drain requests one after the
other, each paired with the save outcome the store produced for it. -/
def workerRun (sys : SysState)
    (reqs : List (PendingSnapshot × Option StoreErr)) : SysState :=
  reqs.foldl (fun acc pr => workerStep acc pr.1 pr.2) sys

/-- The invariant claimed by the spec for `ChainState`: `block == null`
iff the chain has never been initialized (height 0 with no genesis yet);
otherwise `block.height == height`. -/
def chainInv (st : ChainState) : Prop :=
  (st.block = none ↔ st.height = 0) ∧
  (∀ b, st.block = some b → b.Height = st.height)

/-- A store holding nothing: durable height 0, no blocks, no snapshot. -/
def emptyStore : StoreModel :=
  { height := 0
  , getBlock := fun _ => (none, some StoreErr.notFound)
  , latestSnapshot := (none, 0, none) }

/-- A store reporting durable height 1 whose `GetBlock` fails with
NotFound at every height (the stored block is missing). -/
def storeMissingBlock : StoreModel :=
  { height := 1
  , getBlock := fun _ => (none, some StoreErr.notFound)
  , latestSnapshot := (none, 0, none) }

/-- A well-behaved store at durable height 2: `GetBlock h` returns a block
of height `h`, and a latest snapshot is present. -/
def goodStore : StoreModel :=
  { height := 2
  , getBlock := fun h => (some ⟨h, 11⟩, none)
  , latestSnapshot := (some ⟨7⟩, 2, none) }

/-! ## Helper lemmas about `setState` and update sequences -/

theorem setState_block_eq (b : Option Block) (s : Option Snapshot)
    (st : ChainState) : (setState b s st).1.block = b := by
  cases b with
  | none => rfl
  | some blk =>
      by_cases h : blk.Height > st.height
      · simp [setState, h]
      · simp [setState, h]

theorem setState_snapshot_eq (b : Option Block) (s : Option Snapshot)
    (st : ChainState) : (setState b s st).1.snapshot = s := by
  cases b with
  | none => rfl
  | some blk =>
      by_cases h : blk.Height > st.height
      · simp [setState, h]
      · simp [setState, h]

theorem setState_height_le (b : Option Block) (s : Option Snapshot)
    (st : ChainState) : st.height ≤ (setState b s st).1.height := by
  cases b with
  | none => exact Nat.le_refl _
  | some blk =>
      by_cases h : blk.Height > st.height
      · simp [setState, h]
        omega
      · simp [setState, h]

theorem applyUpdates_cons (st : ChainState)
    (u : Option Block × Option Snapshot)
    (us : List (Option Block × Option Snapshot)) :
    applyUpdates st (u :: us) = applyUpdates (setState u.1 u.2 st).1 us := rfl

theorem applyUpdates_height_le (st : ChainState)
    (us : List (Option Block × Option Snapshot)) :
    st.height ≤ (applyUpdates st us).height := by
  induction us generalizing st with
  | nil => exact Nat.le_refl _
  | cons u tl ih =>
      rw [applyUpdates_cons]
      exact Nat.le_trans (setState_height_le u.1 u.2 st) (ih _)

theorem State_setState (b : Option Block) (s : Option Snapshot)
    (st : ChainState) : State (setState b s st).1 = (b, s) := by
  unfold State
  rw [setState_block_eq, setState_snapshot_eq]

theorem State_applyUpdates (st : ChainState)
    (us : List (Option Block × Option Snapshot)) :
    State (applyUpdates st us) = us.foldl (fun _ u => u) (State st) := by
  induction us generalizing st with
  | nil => rfl
  | cons u tl ih =>
      rw [applyUpdates_cons, List.foldl_cons, ih, State_setState]

theorem State_applyUpdates_mem (st : ChainState)
    (us : List (Option Block × Option Snapshot)) :
    State (applyUpdates st us) ∈ State st :: us := by
  induction us generalizing st with
  | nil => exact List.mem_cons_self _ _
  | cons u tl ih =>
      rw [applyUpdates_cons]
      have h := ih (setState u.1 u.2 st).1
      rw [State_setState, Prod.mk.eta] at h
      exact List.mem_cons_of_mem _ h

/-! ## Claim theorems -/

/-- C1: for every call to `setState(b, s)`, the height after the call is
at least the height before; the height strictly increases exactly when
`b` is non-null and `b.Height` is strictly greater than the current
height; a call with `b == null` never changes the height; and over any
sequence of `setState` calls the height read by `Height()` never
decreases. -/
theorem setState_height_monotone :
    (∀ (st : ChainState) (b : Option Block) (s : Option Snapshot),
        st.height ≤ (setState b s st).1.height) ∧
    (∀ (st : ChainState) (b : Option Block) (s : Option Snapshot),
        st.height < (setState b s st).1.height ↔
          ∃ blk, b = some blk ∧ st.height < blk.Height) ∧
    (∀ (st : ChainState) (s : Option Snapshot),
        (setState none s st).1.height = st.height) ∧
    (∀ (st : ChainState) (us : List (Option Block × Option Snapshot)),
        Height st ≤ Height (applyUpdates st us)) := by
  refine ⟨fun st b s => setState_height_le b s st, ?_, fun st s => rfl,
    fun st us => applyUpdates_height_le st us⟩
  intro st b s
  cases b with
  | none => simp [setState]
  | some blk =>
      by_cases h : blk.Height > st.height
      · simp [setState, h]
      · simp [setState, h]

/-- Witness for C1 at a concrete state and block. -/
theorem setState_height_monotone_witness :
    (⟨1, none, none⟩ : ChainState).height ≤
      (setState (some ⟨2, 0⟩) none ⟨1, none, none⟩).1.height :=
  setState_height_monotone.1 ⟨1, none, none⟩ (some ⟨2, 0⟩) none

/-- C4: the fast-fail branch of `BlockSoonWaiter` delivers
`ErrTheDistantFuture` without starting a wait exactly when the target is
strictly greater than the current height plus 3 (stated away from uint64
wraparound, i.e. for `height + slop < 2 ^ 64`, which holds for every
reachable chain height except the top three uint64 values); concretely,
at height 10 a wait for height 14 fast-fails and a wait for height 13
does not. -/
theorem BlockSoonWaiter_distant_future :
    (∀ (st : ChainState) (target : Nat),
        st.height + slop < UINT64MOD →
        (BlockSoonWaiter st target = SoonOutcome.distantFuture ↔
          st.height + 3 < target)) ∧
    BlockSoonWaiter ⟨10, none, none⟩ 14 = SoonOutcome.distantFuture ∧
    BlockSoonWaiter ⟨10, none, none⟩ 13 = SoonOutcome.startedWait := by
  refine ⟨?_, by decide, by decide⟩
  intro st target hlt
  unfold BlockSoonWaiter Height
  rw [Nat.mod_eq_of_lt hlt]
  by_cases h : target > st.height + slop
  · rw [if_pos h]
    exact iff_of_true rfl (by simpa [slop] using h)
  · rw [if_neg h]
    exact iff_of_false (by decide) (by simpa [slop] using h)

/-- Witness for C4: the quantified part applied at height 10, target 14. -/
theorem BlockSoonWaiter_distant_future_witness :
    BlockSoonWaiter ⟨10, none, none⟩ 14 = SoonOutcome.distantFuture :=
  (BlockSoonWaiter_distant_future.1 ⟨10, none, none⟩ 14 (by decide)).mpr
    (by decide)

/-- C8: `TimestampMS()` returns 0 when the current block is null and the
block's `TimestampMS` otherwise, and it leaves the chain state
unchanged. -/
theorem TimestampMS_reads_block (st : ChainState) :
    (st.block = none → (TimestampMS st).1 = 0) ∧
    (∀ b, st.block = some b → (TimestampMS st).1 = b.TimestampMS) ∧
    (TimestampMS st).2 = st := by
  refine ⟨fun h => ?_, fun b h => ?_, rfl⟩
  · simp [TimestampMS, h]
  · simp [TimestampMS, h]

/-- Witness for C8 at a state with no block and a state with a block. -/
theorem TimestampMS_reads_block_witness :
    (TimestampMS ⟨0, none, none⟩).1 = 0 ∧
    (TimestampMS ⟨4, some ⟨4, 99⟩, none⟩).1 = 99 :=
  ⟨(TimestampMS_reads_block ⟨0, none, none⟩).1 rfl,
   (TimestampMS_reads_block ⟨4, some ⟨4, 99⟩, none⟩).2.1 ⟨4, 99⟩ rfl⟩

/-- C9: when `SaveSnapshot` fails for a pending request, the worker
iteration appends one log entry and leaves the shared chain register
untouched, so later `setState` calls and `State()` reads behave exactly
as without the failure, and the loop simply moves on to the remaining
requests without retrying. -/
theorem worker_failure_preserves_chain (sys : SysState)
    (ps : PendingSnapshot) (e : StoreErr) :
    (workerStep sys ps (some e)).chain = sys.chain ∧
    (workerStep sys ps (some e)).logged = sys.logged ++ ["saving snapshot"] ∧
    (∀ (b : Option Block) (s : Option Snapshot),
        setState b s (workerStep sys ps (some e)).chain =
          setState b s sys.chain) ∧
    State (workerStep sys ps (some e)).chain = State sys.chain ∧
    (∀ reqs, workerRun sys ((ps, some e) :: reqs) =
        workerRun (workerStep sys ps (some e)) reqs) :=
  ⟨rfl, rfl, fun _ _ => rfl, rfl, fun _ => rfl⟩

/-- C10: a `setState` call with a non-null block whose height is at most
the current height still overwrites the published block and snapshot,
leaves the height unchanged, and wakes no waiters (no `Broadcast`). -/
theorem setState_nonadvancing (st : ChainState) (blk : Block)
    (s : Option Snapshot) (h : blk.Height ≤ st.height) :
    (setState (some blk) s st).1.block = some blk ∧
    (setState (some blk) s st).1.snapshot = s ∧
    (setState (some blk) s st).1.height = st.height ∧
    (setState (some blk) s st).2 = false := by
  have hn : ¬ blk.Height > st.height := by omega
  refine ⟨setState_block_eq _ _ _, setState_snapshot_eq _ _ _, ?_, ?_⟩
  · simp [setState, hn]
  · simp [setState, hn]

/-- Witness for C10 at a concrete non-advancing update. -/
theorem setState_nonadvancing_witness :
    (setState (some ⟨3, 7⟩) (some ⟨2⟩) ⟨5, some ⟨5, 9⟩, some ⟨1⟩⟩).1.block =
        some ⟨3, 7⟩ ∧
    (setState (some ⟨3, 7⟩) (some ⟨2⟩) ⟨5, some ⟨5, 9⟩, some ⟨1⟩⟩).1.snapshot =
        some ⟨2⟩ ∧
    (setState (some ⟨3, 7⟩) (some ⟨2⟩) ⟨5, some ⟨5, 9⟩, some ⟨1⟩⟩).1.height = 5 ∧
    (setState (some ⟨3, 7⟩) (some ⟨2⟩) ⟨5, some ⟨5, 9⟩, some ⟨1⟩⟩).2 = false :=
  setState_nonadvancing ⟨5, some ⟨5, 9⟩, some ⟨1⟩⟩ ⟨3, 7⟩ (some ⟨2⟩) (by decide)

/-- C2 counterexample: the claimed invariant does not survive every state
update.  Initializing from an uninitialized store yields a state
satisfying the invariant, but one `setState` call with a block of height
0 (which does not advance the height, so the height stays 0) leaves a
non-null block alongside height 0, violating `block == null iff never
initialized`. -/
theorem chainInv_violated :
    chainInv (NewChain emptyStore).1 ∧
    ¬ chainInv (setState (some ⟨0, 5⟩) (some ⟨1⟩) (NewChain emptyStore).1).1 := by
  have e0 : (NewChain emptyStore).1 = ⟨0, none, some stateEmpty⟩ := rfl
  have e1 : (setState (some ⟨0, 5⟩) (some ⟨1⟩) (NewChain emptyStore).1).1 =
      ⟨0, some ⟨0, 5⟩, some ⟨1⟩⟩ := rfl
  rw [e1, e0]
  refine ⟨⟨by simp, fun b hb => by cases hb⟩, fun hinv => ?_⟩
  exact Option.noConfusion (hinv.1.mpr rfl)

/-- C2 amended: the invariant holds after initialization provided the
store is consistent (when its height is at least 1, `GetBlock` at that
height returns a block of exactly that height), and it is preserved by
every `setState` call whose block is non-null with height strictly above
the current height; `setState` calls that do not advance the height are
not required to preserve it (see the counterexample). -/
theorem chainInv_preserved :
    (∀ store : StoreModel,
        (1 ≤ store.height →
          ∃ b, (store.getBlock store.height).1 = some b ∧
            b.Height = store.height) →
        chainInv (NewChain store).1) ∧
    (∀ (st : ChainState) (blk : Block) (s : Option Snapshot),
        st.height < blk.Height → chainInv (setState (some blk) s st).1) := by
  constructor
  · intro store hstore
    by_cases h : store.height < 1
    · have hz : store.height = 0 := by omega
      constructor
      · simp [NewChain, h, hz]
      · intro b hb
        simp [NewChain, h] at hb
    · obtain ⟨b, hb, hbh⟩ := hstore (by omega)
      constructor
      · simp [NewChain, h, hb]
        omega
      · intro b' hb'
        simp [NewChain, h, hb] at hb'
        rw [← hb', hbh]
        simp [NewChain, h]
  · intro st blk s hadv
    have e : (setState (some blk) s st).1 =
        { height := blk.Height, block := some blk, snapshot := s } := by
      simp [setState, hadv]
    rw [e]
    refine ⟨by simp; omega, fun b' hb' => ?_⟩
    rw [Option.some.inj hb']

/-- Witness for C2's amended statement: a consistent store at height 2,
and an advancing update from the genesis-seeded state. -/
theorem chainInv_preserved_witness :
    chainInv (NewChain goodStore).1 ∧
    chainInv (setState (some ⟨1, 4⟩) (some ⟨3⟩) ⟨0, none, some stateEmpty⟩).1 :=
  ⟨chainInv_preserved.1 goodStore (fun _ => ⟨⟨2, 11⟩, rfl, rfl⟩),
   chainInv_preserved.2 ⟨0, none, some stateEmpty⟩ ⟨1, 4⟩ (some ⟨3⟩)
     (by decide)⟩

/-- C3 counterexample: with a store of height 1 whose `GetBlock` fails
with NotFound, `NewChain` does not fail: its error result is `nil`
(the code discards the `GetBlock` error), contradicting the claim that
construction fails. -/
theorem NewChain_notFound_succeeds :
    1 ≤ storeMissingBlock.height ∧
    storeMissingBlock.getBlock storeMissingBlock.height =
      (none, some StoreErr.notFound) ∧
    (NewChain storeMissingBlock).2 = none :=
  ⟨by decide, rfl, rfl⟩

/-- C3 amended: `NewChain` never returns an error; in particular, when
`GetBlock` fails (e.g. with NotFound) at a stored height of at least 1,
the error is discarded and the chain is constructed anyway, with a null
block field. -/
theorem NewChain_ignores_getBlock_errors (store : StoreModel) :
    (NewChain store).2 = none ∧
    (1 ≤ store.height → (store.getBlock store.height).1 = none →
      (NewChain store).1.block = none) := by
  constructor
  · by_cases h : store.height < 1 <;> simp [NewChain, h]
  · intro h1 hb
    have h : ¬ store.height < 1 := by omega
    simp [NewChain, h, hb]

/-- Witness for C3's amended statement at the missing-block store. -/
theorem NewChain_ignores_getBlock_errors_witness :
    (NewChain storeMissingBlock).2 = none ∧
    (NewChain storeMissingBlock).1.block = none :=
  ⟨(NewChain_ignores_getBlock_errors storeMissingBlock).1,
   (NewChain_ignores_getBlock_errors storeMissingBlock).2 (by decide) rfl⟩

/-- C5: state updates are atomic steps of the guarded register, so after
`setState(b, s)` every read through `State()` following any further
sequence of updates returns exactly the pair installed by the latest
update — `(b, s)` itself when there is none — and in every case a pair
that some single `setState` call installed, never a mixture of fields
from different updates. -/
theorem State_after_setState (st : ChainState) (b : Option Block)
    (s : Option Snapshot) (us : List (Option Block × Option Snapshot)) :
    State (applyUpdates (setState b s st).1 us) =
      us.foldl (fun _ u => u) (b, s) ∧
    State (applyUpdates (setState b s st).1 us) ∈ (b, s) :: us := by
  constructor
  · rw [State_applyUpdates, State_setState]
  · have h := State_applyUpdates_mem (setState b s st).1 us
    rwa [State_setState] at h

/-- C6: the `BlockWaiter` goroutine, run over the sequence of states it
observes at each wakeup, sends at most one message; it sends exactly one
iff some observed state has height at least the target; and if every
observed state is below the target (any number of advances to smaller
heights) it sends nothing and keeps waiting. -/
theorem BlockWaiter_resolution (target : Nat) (states : List ChainState) :
    (BlockWaiterRun target states).length ≤ 1 ∧
    (BlockWaiterRun target states = [()] ↔
      ∃ st ∈ states, target ≤ st.height) ∧
    ((∀ st ∈ states, st.height < target) →
      BlockWaiterRun target states = []) := by
  induction states with
  | nil =>
      refine ⟨by simp [BlockWaiterRun], ?_, fun _ => rfl⟩
      simp [BlockWaiterRun]
  | cons st rest ih =>
      by_cases h : st.height < target
      · have e : BlockWaiterRun target (st :: rest) =
            BlockWaiterRun target rest := by
          simp [BlockWaiterRun, h]
        refine ⟨by rw [e]; exact ih.1, ?_, fun hall => ?_⟩
        · rw [e, ih.2.1]
          constructor
          · rintro ⟨x, hx, hxh⟩
            exact ⟨x, List.mem_cons_of_mem _ hx, hxh⟩
          · rintro ⟨x, hx, hxh⟩
            rcases List.mem_cons.mp hx with rfl | hx'
            · omega
            · exact ⟨x, hx', hxh⟩
        · rw [e]
          exact ih.2.2 (fun x hx => hall x (List.mem_cons_of_mem _ hx))
      · have e : BlockWaiterRun target (st :: rest) = [()] := by
          simp [BlockWaiterRun, h]
        refine ⟨by rw [e]; exact Nat.le_refl 1, ?_, fun hall => ?_⟩
        · rw [e]
          exact iff_of_true rfl ⟨st, List.mem_cons_self _ _, by omega⟩
        · exact absurd (hall st (List.mem_cons_self _ _)) h

/-- Witness for C6: a waiter for height 2 stays silent while only height
1 is observed, and sends once when height 2 appears. -/
theorem BlockWaiter_resolution_witness :
    BlockWaiterRun 2 [⟨1, none, none⟩] = [] ∧
    BlockWaiterRun 2 [⟨1, none, none⟩, ⟨2, none, none⟩] = [()] :=
  ⟨(BlockWaiter_resolution 2 [⟨1, none, none⟩]).2.2 (by decide),
   (BlockWaiter_resolution 2 [⟨1, none, none⟩, ⟨2, none, none⟩]).2.1.mpr
     ⟨⟨2, none, none⟩, by simp, by decide⟩⟩

/-- C7: `NewChain` seeds the state from storage: height becomes the
store's current height; below height 1 the snapshot is the empty snapshot
and the block stays null; otherwise block and snapshot are the store's
block at that height and its latest snapshot. -/
theorem NewChain_seeds_state (store : StoreModel) :
    (NewChain store).1.height = store.height ∧
    (store.height < 1 →
      (NewChain store).1.block = none ∧
      (NewChain store).1.snapshot = some stateEmpty) ∧
    (1 ≤ store.height →
      (NewChain store).1.block = (store.getBlock store.height).1 ∧
      (NewChain store).1.snapshot = (store.latestSnapshot).1) := by
  refine ⟨?_, fun h => ?_, fun h1 => ?_⟩
  · by_cases h : store.height < 1 <;> simp [NewChain, h]
  · simp [NewChain, h]
  · have h : ¬ store.height < 1 := by omega
    simp [NewChain, h]

/-- Witness for C7 at an uninitialized store and a populated store. -/
theorem NewChain_seeds_state_witness :
    ((NewChain emptyStore).1.block = none ∧
      (NewChain emptyStore).1.snapshot = some stateEmpty) ∧
    ((NewChain goodStore).1.block = (goodStore.getBlock goodStore.height).1 ∧
      (NewChain goodStore).1.snapshot = (goodStore.latestSnapshot).1) :=
  ⟨(NewChain_seeds_state emptyStore).2.1 (by decide),
   (NewChain_seeds_state goodStore).2.2 (by decide)⟩

end Protocol
